import Mathlib

/-!
Shallow embedding of the coordination core of the research-report generator
(`src/task_planner.py`, `src/memory_manager.py`, `src/utils/embeddings.py`,
`src/search_agent.py`, `src/agents/quality_critic.py`,
`src/research_coordinator.py`), together with theorems settling the
behavioural claims about it.

Conventions used throughout:
* Python strings are Lean `String`s; Python's substring test `a in b` is
  infix containment of the character lists; `str.strip()` is `pyStrip`
  (structural, so that concrete runs evaluate inside the kernel).
* Python floats are modelled as `ℚ` (exact arithmetic).
* Python exceptions are modelled with `Except`: a fallible call returns
  `Except (tag × state) (value × state)` so that mutations performed before
  the raise survive into the handler, exactly as in CPython.
* External collaborators (LLM completions, the embedding provider, the
  Chroma vector store, web search) enter as explicit oracle parameters.
-/

namespace ResearchCore

/-- Python's `a in b` on strings: `a` occurs contiguously inside `b`. -/
def pyIn (a b : String) : Bool := decide (a.toList <:+: b.toList)

/-- Python's `str.strip()` on the character list: drop leading and
trailing whitespace. -/
def pyStripList (l : List Char) : List Char :=
  ((l.dropWhile Char.isWhitespace).reverse.dropWhile
    Char.isWhitespace).reverse

/-- Python's `str.strip()`. -/
def pyStrip (s : String) : String := String.mk (pyStripList s.toList)

/-! ## Task planner (`src/task_planner.py`) -/

/-- `TaskStatus` enum from `task_planner.py`. -/
inductive TaskStatus
  | pending
  | in_progress
  | completed
  | failed
  | skipped
deriving DecidableEq

/-- The `Subtask` dataclass from `task_planner.py`. -/
structure Subtask where
  id : String
  description : String
  priority : Int
  dependencies : List String := []
  status : TaskStatus := .pending
  result : Option String := none
  attempts : Nat := 0
  max_attempts : Nat := 3
deriving DecidableEq

/-- One JSON entry of the LLM's `subtasks` array, with each field either
present or absent (`task_data.get` / `task_data[...]` distinguish them). -/
structure TaskData where
  id : Option String
  description : Option String
  priority : Option Int
  dependencies : Option (List String)
deriving DecidableEq

/-- Outcome of the LLM call made by `TaskPlanner.decompose`. -/
inductive LLMDecomposeResult
  | apiError
  | invalidJson
  | jsonObject (subtasks : List TaskData)
deriving DecidableEq

/-- Python `d["k"]`: raises `KeyError` when the key is absent. -/
def requireField {α : Type} (v : Option α) : Except String α :=
  match v with
  | some a => .ok a
  | none => .error "KeyError"

/-- Building one `Subtask` from a JSON entry inside `decompose`'s loop:
`id`, `description`, `priority` are accessed with `[...]` (may raise
`KeyError`), `dependencies` with `.get(..., [])`. -/
def mkSubtask (td : TaskData) : Except String Subtask := do
  let tid ← requireField td.id
  let desc ← requireField td.description
  let prio ← requireField td.priority
  .ok { id := tid, description := desc, priority := prio,
        dependencies := td.dependencies.getD [] }

/-- `TaskPlanner.decompose(goal)`.  The `try` block only catches
`json.JSONDecodeError`; an API error or a `KeyError` raised while building
subtasks propagates to the caller. -/
def decompose (goal : String) (resp : LLMDecomposeResult) :
    Except String (List Subtask) :=
  match resp with
  | .apiError => .error "APIError"
  | .invalidJson =>
      .ok [{ id := "task_1", description := goal, priority := 1 }]
  | .jsonObject subtasks => subtasks.mapM mkSubtask

/-- `TaskPlanner._get_task_by_id`: first task with the given id. -/
def findTask (tasks : List Subtask) (tid : String) : Option Subtask :=
  tasks.find? (fun t => t.id == tid)

/-- `TaskPlanner._dependencies_met`: every dependency resolves to a task
whose status is `completed`; an unknown dependency id fails the check. -/
def dependenciesMet (tasks : List Subtask) (t : Subtask) : Bool :=
  t.dependencies.all (fun dep =>
    match findTask tasks dep with
    | none => false
    | some dt => dt.status == .completed)

/-- The filter of `get_next_task`'s first candidate list. -/
def eligiblePending (tasks : List Subtask) (t : Subtask) : Bool :=
  t.status == .pending && dependenciesMet tasks t &&
    decide (t.attempts < t.max_attempts)

/-- The filter of `get_next_task`'s retry fallback list. -/
def eligibleRetry (tasks : List Subtask) (t : Subtask) : Bool :=
  t.status == .failed && decide (t.attempts < t.max_attempts) &&
    dependenciesMet tasks t

/-- `sorted(candidates, key=lambda t: t.priority)[0]` over the sublist of
tasks satisfying `p`, together with the position of the selected task in
the original list.  Python's sort is stable, so ties keep declaration
order: the selected task is the first one of minimal priority. -/
def firstMin (p : Subtask → Bool) : List Subtask → Option (Nat × Subtask)
  | [] => none
  | t :: ts =>
    match firstMin p ts with
    | none => if p t then some (0, t) else none
    | some (j, b) =>
      if p t then
        if b.priority < t.priority then some (j + 1, b) else some (0, t)
      else some (j + 1, b)

/-- `TaskPlanner.get_next_task`: select the first minimal-priority eligible
pending task, else the first minimal-priority retryable failed task; the
selected task is mutated to `in_progress` with `attempts += 1`. -/
def getNextTask (tasks : List Subtask) : Option Subtask × List Subtask :=
  match firstMin (eligiblePending tasks) tasks with
  | some (i, t) =>
    let t' := { t with status := .in_progress, attempts := t.attempts + 1 }
    (some t', tasks.set i t')
  | none =>
    match firstMin (eligibleRetry tasks) tasks with
    | some (i, t) =>
      let t' := { t with status := .in_progress, attempts := t.attempts + 1 }
      (some t', tasks.set i t')
    | none => (none, tasks)

/-- `TaskPlanner.update_status`: sets status (and result when given) on the
first task with the given id; unknown id returns `False` without change. -/
def updateStatus (tasks : List Subtask) (tid : String) (st : TaskStatus)
    (result : Option String) : Bool × List Subtask :=
  match tasks.findIdx? (fun t => t.id == tid) with
  | none => (false, tasks)
  | some i =>
    match tasks[i]? with
    | none => (false, tasks)
    | some t =>
      let t' := { t with
                  status := st,
                  result := (match result with
                             | some r => some r
                             | none => t.result) }
      (true, tasks.set i t')

/-- One externally observable planner operation. -/
inductive PlannerOp
  | next
  | update (tid : String) (st : TaskStatus) (result : Option String)

/-- Apply one operation; `next` also reports the task it handed out. -/
def stepOp (tasks : List Subtask) : PlannerOp → List Subtask × Option Subtask
  | .next =>
    let r := getNextTask tasks
    (r.2, r.1)
  | .update tid st res => ((updateStatus tasks tid st res).2, none)

/-- Run a sequence of operations, collecting every task handed out by the
`next` calls along the way. -/
def runOps : List PlannerOp → List Subtask → List Subtask × List Subtask
  | [], tasks => (tasks, [])
  | op :: ops, tasks =>
    let s := stepOp tasks op
    let rest := runOps ops s.1
    (rest.1, s.2.toList ++ rest.2)

/-! ## Embedding cache and memory store
(`src/utils/embeddings.py`, `src/memory_manager.py`)

The embedding provider is deterministic (spec §6), so a document's vector
is a function of its text and the cache only needs to remember which texts
it has seen; cosine similarity between two embeddings becomes an oracle
function `sim` on the two texts. -/

/-- Mutable state of `EmbeddingGenerator`. -/
structure CacheState where
  entries : List String := []
  embedding_count : Nat := 0
  api_call_count : Nat := 0
  cache_hit_count : Nat := 0
  cache_hits : Nat := 0
  total_requests : Nat := 0
deriving DecidableEq

/-- One stored Chroma document (id, text, metadata; the embedding vector is
determined by the text). Metadata values are modelled as strings. -/
structure MemoryDoc where
  id : String
  text : String
  metadata : List (String × String)
deriving DecidableEq

/-- Mutable state of one `MemoryManager` (its collection plus its embedding
generator). -/
structure MemState where
  docs : List MemoryDoc := []
  cache : CacheState := {}
deriving DecidableEq

/-- External-world oracle for the memory store: the provider's cosine
similarity on texts, and whether the embeddings API / the Chroma query are
currently failing. -/
structure MemEnv where
  sim : String → String → ℚ
  embedApiFails : Bool := false
  queryFails : Bool := false

/-- `EmbeddingGenerator.create_embedding`: validates the text, counts the
request, serves a cache hit, otherwise calls the provider (three retries,
each counted) and memoizes.  Returns the cache state after the call; the
vector itself is determined by the text. -/
def createEmbedding (env : MemEnv) (c : CacheState) (text : String) :
    Except (String × CacheState) CacheState :=
  if pyStrip text = "" then .error ("ValueError", c)
  else
    let c := { c with total_requests := c.total_requests + 1 }
    if text ∈ c.entries then
      .ok { c with
            cache_hit_count := c.cache_hit_count + 1,
            cache_hits := c.cache_hits + 1 }
    else if env.embedApiFails then
      .error ("EmbeddingError", { c with api_call_count := c.api_call_count + 3 })
    else
      .ok { c with
            api_call_count := c.api_call_count + 1,
            entries := text :: c.entries,
            embedding_count := c.embedding_count + 1 }

/-- First element attaining the maximum of `f`, scanning left to right
(strictly greater replaces the current best, so ties keep the earlier
element). -/
def bestByAux {α : Type} (f : α → ℚ) (cur : α) : List α → α
  | [] => cur
  | x :: xs => bestByAux f (if f x > f cur then x else cur) xs

/-- First element attaining the maximum of `f`, or `none` on `[]`. -/
def bestBy {α : Type} (f : α → ℚ) : List α → Option α
  | [] => none
  | x :: xs => some (bestByAux f x xs)

/-- Top `k` elements by descending `f` (nearest first), as the Chroma
engine returns them. -/
def selectTop {α : Type} [DecidableEq α] (f : α → ℚ) : Nat → List α → List α
  | 0, _ => []
  | Nat.succ k, l =>
    match bestBy f l with
    | none => []
    | some b => b :: selectTop f k (l.erase b)

/-- `collection.query`: the `topK` nearest stored documents with their
cosine distances (`distance = 1 − similarity`), nearest first. -/
def chromaQuery (env : MemEnv) (docs : List MemoryDoc) (q : String)
    (topK : Nat) : List (MemoryDoc × ℚ) :=
  (selectTop (fun d => env.sim q d.text) topK docs).map
    (fun d => (d, 1 - env.sim q d.text))

/-- One formatted result of `MemoryManager.search_memory`. -/
structure SearchHit where
  id : String
  text : String
  metadata : List (String × String)
  similarity : ℚ
deriving DecidableEq

/-- `MemoryManager.search_memory` (the claims under verification always
pass `filter_dict=None`, so the metadata filter is not modelled): validate
the query, strip it, embed it (mutating the cache), query Chroma, and
convert each distance back to a similarity `1 − distance`. -/
def searchMemory (env : MemEnv) (s : MemState) (query : String)
    (topK : Nat) : Except (String × MemState) (List SearchHit × MemState) :=
  if pyStrip query = "" then .error ("ValueError", s)
  else
    match createEmbedding env s.cache (pyStrip query) with
    | .error e => .error (e.1, { s with cache := e.2 })
    | .ok c' =>
      if env.queryFails then .error ("QueryError", { s with cache := c' })
      else
        .ok ((chromaQuery env s.docs (pyStrip query) topK).map
          (fun p => { id := p.1.id, text := p.1.text,
                      metadata := p.1.metadata,
                      similarity := 1 - p.2 }), { s with cache := c' })

/-- `MemoryManager.check_duplicate`: empty/whitespace text short-circuits
to `None`; otherwise the single nearest neighbour is fetched and returned
iff its similarity meets the threshold.  The whole body sits in
`try ... except Exception: return None`, so a raising search also yields
`None` (with whatever cache mutations already happened kept). -/
def checkDuplicate (env : MemEnv) (s : MemState) (text : String)
    (threshold : ℚ) : Option SearchHit × MemState :=
  if pyStrip text = "" then (none, s)
  else
    match searchMemory env s text 1 with
    | .error e => (none, e.2)
    | .ok (results, s') =>
      match results with
      | [] => (none, s')
      | most_similar :: _ =>
        if most_similar.similarity ≥ threshold then (some most_similar, s')
        else (none, s')

/-- Replace the value at a key of a Python dict (keeping its position), or
append the pair when the key is new — the behaviour of `d[k] = v` /
`d.update({...})`. -/
def setKV (m : List (String × String)) (k v : String) :
    List (String × String) :=
  if (m.lookup k).isSome then
    m.map (fun p => if p.1 = k then (k, v) else p)
  else m ++ [(k, v)]

/-- The metadata stamping of `add_to_memory` step 5: keep an existing
`timestamp`, else stamp the current time; always update `text_length` and
`source` (defaulting `source` to `"user_input"`). -/
def stampMetadata (metadata : Option (List (String × String)))
    (now : String) (text : String) : List (String × String) :=
  let md := metadata.getD []
  let source := (md.lookup "source").getD "user_input"
  let md := if (md.lookup "timestamp").isSome then md
            else md ++ [("timestamp", now)]
  setKV (setKV md "text_length" (toString text.length)) "source" source

/-- `MemoryManager.add_to_memory`: validate and strip the text; when
duplicate checking is on and a duplicate is found, return the existing id
without writing; otherwise pick the given or a fresh id (`uuid4`, supplied
by the oracle argument `freshId`), embed, stamp the metadata, and append
the document. -/
def addToMemory (env : MemEnv) (s : MemState) (text : String)
    (metadata : Option (List (String × String))) (document_id : Option String)
    (check_dup : Bool) (freshId : String) (now : String) :
    Except (String × MemState) (String × MemState) :=
  if pyStrip text = "" then .error ("ValueError", s)
  else
    match (if check_dup then checkDuplicate env s (pyStrip text) (95/100)
           else (none, s)) with
    | (some d, s₁) => .ok (d.id, s₁)
    | (none, s₁) =>
      match createEmbedding env s₁.cache (pyStrip text) with
      | .error e => .error (e.1, { s₁ with cache := e.2 })
      | .ok c' =>
        .ok (document_id.getD freshId,
             { docs := s₁.docs ++
                 [{ id := document_id.getD freshId, text := pyStrip text,
                    metadata := stampMetadata metadata now (pyStrip text) }],
               cache := c' })

/-! ## Retrieval merger (`src/search_agent.py`) -/

/-- Origin tag of a merged item. -/
inductive ResultOrigin
  | memory
  | web
deriving DecidableEq

/-- One memory-search result dict fed into `_merge_results`. -/
structure MemoryResult where
  text : String
  similarity : ℚ
  metadata : List (String × String)
deriving DecidableEq

/-- One web-search result dict fed into `_merge_results`. -/
structure WebResult where
  content : String
  url : String
  title : String
  score : ℚ
deriving DecidableEq

/-- The provenance record attached by `_merge_results`. -/
inductive Provenance
  | fromMemory (original_source original_query stored_at : String)
      (confidence : ℚ)
  | fromWeb (url fetched_at : String) (tavily_score : ℚ)
deriving DecidableEq

/-- One entry of the merged list.  Memory items carry `similarity` and
`metadata`; web items carry `url`, `title` and `score` — keys absent from
the other variant are `none`. -/
structure MergedItem where
  content : String
  source : ResultOrigin
  similarity : Option ℚ
  metadata : Option (List (String × String))
  url : Option String
  title : Option String
  score : Option ℚ
  provenance : Provenance
deriving DecidableEq

/-- Step [1] of `_merge_results`: tag a memory result. -/
def tagMemory (r : MemoryResult) : MergedItem :=
  { content := r.text, source := .memory, similarity := some r.similarity,
    metadata := some r.metadata, url := none, title := none, score := none,
    provenance := .fromMemory ((r.metadata.lookup "source").getD "unknown")
      ((r.metadata.lookup "query").getD "")
      ((r.metadata.lookup "timestamp").getD "") r.similarity }

/-- Step [2] of `_merge_results`: tag a web result (`now` stands for
`datetime.now().isoformat()`). -/
def tagWeb (now : String) (r : WebResult) : MergedItem :=
  { content := r.content, source := .web, similarity := none,
    metadata := none, url := some r.url, title := some r.title,
    score := some r.score, provenance := .fromWeb r.url now r.score }

/-- The pairwise duplicate test of `_remove_duplicates`'s inner loop: a
containment hit counts as a duplicate, except that when both texts exceed
50 characters only exact equality does. -/
def isDupPair (content seen : String) : Bool :=
  if pyIn content seen || pyIn seen content then
    if content.length > 50 && seen.length > 50 then content == seen
    else true
  else false

/-- The scan of `_remove_duplicates`: items with empty content are skipped,
an item duplicating any already-seen content is dropped, every kept item's
content joins the seen list. -/
def removeDuplicatesAux : List MergedItem → List String → List MergedItem
  | [], _ => []
  | r :: rs, seen =>
    if r.content = "" then removeDuplicatesAux rs seen
    else if seen.any (fun s => isDupPair r.content s) then
      removeDuplicatesAux rs seen
    else r :: removeDuplicatesAux rs (seen ++ [r.content])

/-- `SearchAgent._remove_duplicates`. -/
def removeDuplicates (results : List MergedItem) : List MergedItem :=
  removeDuplicatesAux results []

/-- Step [4]'s `sort_key`: similarity for memory items, provider score for
web items. -/
def sortKey (item : MergedItem) : ℚ :=
  match item.source with
  | .memory => item.similarity.getD 0
  | .web => item.score.getD 0

/-- `SearchAgent._merge_results`: tag, concatenate, deduplicate, then sort
descending by `sort_key` (Python's sort is stable). -/
def mergeResults (now : String) (memory_results : List MemoryResult)
    (web_results : List WebResult) : List MergedItem :=
  let merged := memory_results.map tagMemory ++ web_results.map (tagWeb now)
  let merged := removeDuplicates merged
  merged.mergeSort (fun a b => decide (sortKey a ≥ sortKey b))

/-! ## Quality critic (`src/agents/quality_critic.py`)

`execute` builds a prompt from its `input_data` and hands it to
`_call_llm_json`; the content of the prompt is opaque, so the model takes
the (possibly failed) structured LLM response directly. -/

/-- A JSON value sitting in a numeric position: either something `float()`
accepts (numbers, numeric strings, booleans), or something it rejects. -/
inductive JNum
  | num (q : ℚ)
  | unparsable
deriving DecidableEq

/-- The five fixed score dimensions (`_SCORE_KEYS`). -/
inductive ScoreKey
  | completeness
  | accuracy
  | clarity
  | structureDim
  | source_quality
deriving DecidableEq

/-- The parsed JSON object returned by `_call_llm_json` inside
`_evaluate_report`: `scores` is `none` when the key is missing or not a
dict, otherwise a map giving each dimension's raw value when present. -/
structure CriticData where
  scores : Option (ScoreKey → Option JNum)
  overall : Option JNum

/-- `float(val) if val is not None else _DEFAULT_SCORE`, with
`TypeError`/`ValueError` also falling back to the default 5. -/
def parseScore (v : Option JNum) : ℚ :=
  match v with
  | none => 5
  | some (.num q) => q
  | some .unparsable => 5

/-- `max(1.0, min(10.0, x))`. -/
def clamp110 (q : ℚ) : ℚ := max 1 (min 10 q)

/-- `sum(scores.values()) / len(_SCORE_KEYS)`. -/
def meanScores (s : ScoreKey → ℚ) : ℚ :=
  (s .completeness + s .accuracy + s .clarity + s .structureDim +
    s .source_quality) / 5

/-- Python's `round` to an integer: nearest, halves to even. -/
def roundHalfEvenInt (q : ℚ) : ℤ :=
  if q - Int.floor q < 1/2 then Int.floor q
  else if q - Int.floor q > 1/2 then Int.floor q + 1
  else if Int.floor q % 2 = 0 then Int.floor q else Int.floor q + 1

/-- Python's `round(x, 1)`. -/
def pyRound1 (q : ℚ) : ℚ := (roundHalfEvenInt (10 * q) : ℚ) / 10

/-- The scores/overall part of `_evaluate_report`'s result (the feedback
string is not touched by any verified claim and is left out). -/
structure EvalResult where
  scores : ScoreKey → ℚ
  overall_score : ℚ

/-- `_default_evaluation_result`. -/
def defaultEvaluation : EvalResult :=
  { scores := fun _ => 5, overall_score := 5 }

/-- `QualityCritic._evaluate_report` applied to the LLM response `data`
(`none` models the empty dict `_call_llm_json` returns on any failure). -/
def evaluateReport (data : Option CriticData) : EvalResult :=
  match data with
  | none => defaultEvaluation
  | some d =>
    match d.scores with
    | none => defaultEvaluation
    | some raw =>
      let scores := fun k => clamp110 (parseScore (raw k))
      let overall_score :=
        match d.overall with
        | some (.num q) => q
        | some .unparsable => meanScores scores
        | none => meanScores scores
      { scores := scores, overall_score := pyRound1 overall_score }

/-- The dict returned by `QualityCritic.execute`. -/
structure CriticOutput where
  scores : ScoreKey → ℚ
  overall_score : ℚ
  pass : Bool

/-- `QualityCritic.execute`: evaluate, then `pass = overall >= 7.0`. -/
def criticExecute (data : Option CriticData) : CriticOutput :=
  let r := evaluateReport data
  { scores := r.scores, overall_score := r.overall_score,
    pass := decide (r.overall_score ≥ 7) }

/-! ## Pipeline coordinator (`src/research_coordinator.py`)

The four agents are external collaborators here (each one wraps LLM or
search calls), so `run` is modelled against an oracle giving each agent's
behaviour; `Except.error` models the agent raising. -/

/-- The fields of the researcher's result dict that `run` reads. -/
structure ResearchData where
  queries_used : List String := []
  source_count : Nat := 0
  source_urls : List String := []
deriving DecidableEq

/-- The fields of the analyzer's result dict that `run` reads. -/
structure Analysis where
  clusters : List String := []
  insights : List String := []
  trends : List String := []
deriving DecidableEq

/-- The writer's result dict. -/
structure DraftDict where
  report : String
deriving DecidableEq

/-- The critic's result dict. -/
structure ReviewDict where
  overall_score : ℚ := 0
  scores : List (String × ℚ) := []
  pass : Bool := false
  feedback : String := ""
deriving DecidableEq

/-- The dict `run` passes to `writer.execute`; `feedback` and `report` are
only inserted on revision passes. -/
structure WriterInput where
  topic : String
  analysis : Analysis
  sources : List String
  feedback : Option String
  report : Option String
deriving DecidableEq

/-- The dict `run` passes to `critic.execute`. -/
structure CriticInput where
  topic : String
  report : String
deriving DecidableEq

/-- Behaviour of the four stage agents during one `run`. -/
structure CoordEnv where
  researcher : Except String ResearchData
  analyzer : ResearchData → Except String Analysis
  writer : WriterInput → Except String DraftDict
  critic : CriticInput → Except String ReviewDict

/-- `self.max_revision_rounds` set in `ResearchCoordinator.__init__`. -/
def maxRevisionRounds : Nat := 2

/-- Python truthiness of the loop's `feedback` variable (`None` and the
empty string are falsy). -/
def truthyFeedback : Option String → Bool
  | none => false
  | some s => s ≠ ""

/-- Mutable state of the Write↔Critique loop. -/
structure LoopState where
  draft : DraftDict
  review : ReviewDict
  revision_count : Nat
  feedback : Option String
  previous_report : String
deriving DecidableEq

/-- The `writer_input` dict built at the top of each loop round:
`feedback` and `report` are only set when the `feedback` variable is
truthy. -/
def loopWriterInput (topic : String) (analysis : Analysis)
    (sources : List String) (st : LoopState) : WriterInput :=
  { topic := topic, analysis := analysis, sources := sources,
    feedback := if truthyFeedback st.feedback then st.feedback else none,
    report := if truthyFeedback st.feedback then some st.previous_report
              else none }

/-- Phase 3 of `run`: up to `fuel` rounds of Write→Critique.  A raising
writer or critic breaks out of the loop; a passing review breaks; a
failing review increments `revision_count` and stores the feedback and
the previous report.  The writer inputs of all performed Write calls are
returned alongside the final state. -/
def runLoop (env : CoordEnv) (topic : String) (analysis : Analysis)
    (sources : List String) : Nat → LoopState → LoopState × List WriterInput
  | 0, st => (st, [])
  | Nat.succ rounds, st =>
    let winput : WriterInput := loopWriterInput topic analysis sources st
    match env.writer winput with
    | .error _ => (st, [winput])
    | .ok draft =>
      match env.critic { topic := topic, report := draft.report } with
      | .error _ => ({ st with draft := draft }, [winput])
      | .ok review =>
        if review.pass then
          ({ st with draft := draft, review := review }, [winput])
        else
          let st' : LoopState :=
            { draft := draft, review := review,
              revision_count := st.revision_count + 1,
              feedback := some review.feedback,
              previous_report := draft.report }
          let rest := runLoop env topic analysis sources rounds st'
          (rest.1, winput :: rest.2)

/-- The dict returned by `ResearchCoordinator.run`. -/
structure RunResult where
  topic : String
  report : String
  score : ℚ
  scores : List (String × ℚ)
  revision_count : Nat
  queries_used : List String
  source_count : Nat
  insights_count : Nat
deriving DecidableEq

/-- `ResearchCoordinator.run`: normalize the topic, run Research and
Analyze (exceptions from either are swallowed, leaving the empty-dict
defaults), run the Write↔Critique loop `max_revision_rounds + 1` times,
and assemble the result dict.  The writer inputs of the performed Write
calls are exposed alongside for instrumentation. -/
def coordinatorRun (env : CoordEnv) (topic : String) :
    RunResult × List WriterInput :=
  let topic := if pyStrip topic = "" then "일반" else pyStrip topic
  let research_data :=
    match env.researcher with
    | .ok r => r
    | .error _ => {}
  let analysis :=
    match env.analyzer research_data with
    | .ok a => a
    | .error _ => {}
  let st0 : LoopState :=
    { draft := { report := "" }, review := {}, revision_count := 0,
      feedback := none, previous_report := "" }
  let r := runLoop env topic analysis research_data.source_urls
    (maxRevisionRounds + 1) st0
  ({ topic := topic, report := r.1.draft.report,
     score := r.1.review.overall_score, scores := r.1.review.scores,
     revision_count := r.1.revision_count,
     queries_used := research_data.queries_used,
     source_count := research_data.source_count,
     insights_count := analysis.insights.length }, r.2)

/-! ## Concrete inputs used by witnesses and counterexamples -/

/-- A malformed-but-valid-JSON decompose response: the subtask entry lacks
the required `id` field. -/
def demoBadTaskData : TaskData :=
  { id := none, description := some "collect data", priority := some 1,
    dependencies := none }

/-- A memory result whose stored text is empty. -/
def demoEmptyMem : MemoryResult :=
  { text := "", similarity := 9/10, metadata := [] }

/-- An ordinary web result. -/
def demoWeb : WebResult :=
  { content := "abc", url := "u", title := "ti", score := 1/2 }

/-- A critic LLM response with all five scores 8 and provider overall
`7.77`. -/
def demoCriticData : CriticData :=
  { scores := some (fun _ => some (.num 8)), overall := some (.num (777/100)) }

/-- Stage behaviour where every write succeeds and the critic always fails
the draft. -/
def demoCoordEnv : CoordEnv :=
  { researcher := .ok {}, analyzer := fun _ => .ok {},
    writer := fun _ => .ok { report := "draft" },
    critic := fun _ => .ok { overall_score := 5, scores := [], pass := false,
                             feedback := "fb" } }

/-- The writer behaviour of `demoCoordEnv` as a total function. -/
def demoWriterFun : WriterInput → DraftDict := fun _ => { report := "draft" }

/-- A deterministic embedding oracle where identical texts have cosine
similarity 1 and distinct texts 0, with both external services healthy. -/
def demoMemEnv : MemEnv := { sim := fun a b => if a = b then 1 else 0 }

/-- The same oracle with the vector-store query raising. -/
def demoMemEnvQF : MemEnv :=
  { sim := fun a b => if a = b then 1 else 0, queryFails := true }

/-- The same oracle with the embeddings API failing all its retries. -/
def demoMemEnvEF : MemEnv :=
  { sim := fun a b => if a = b then 1 else 0, embedApiFails := true }

/-- Scheduler demo: task A, priority 1, no dependencies. -/
def demoTaskA : Subtask := { id := "A", description := "a", priority := 1 }

/-- Scheduler demo: task B, priority 2, depends on A. -/
def demoTaskB : Subtask :=
  { id := "B", description := "b", priority := 2, dependencies := ["A"] }

/-- Scheduler demo: task C, priority 1, depends on A. -/
def demoTaskC : Subtask :=
  { id := "C", description := "c", priority := 1, dependencies := ["A"] }

/-- Scheduler demo: a failed task that exhausted its 3 attempts. -/
def demoBlocked : Subtask :=
  { id := "X", description := "x", priority := 1, status := .failed,
    attempts := 3 }

/-- Scheduler demo: an exhausted failed task next to a healthy one. -/
def demoTasks5 : List Subtask := [demoBlocked, demoTaskA]

/-- Scheduler demo: a trace that keeps re-marking the exhausted task
failed and asking for work. -/
def demoOps5 : List PlannerOp :=
  [.next, .update "X" .failed none, .next]

/-- The critic behaviour of `demoCoordEnv` as a total function. -/
def demoCriticFun : CriticInput → ReviewDict :=
  fun _ => { overall_score := 5, scores := [], pass := false, feedback := "fb" }

/-! ## Helper lemmas -/

theorem mem_removeDuplicatesAux_ne_empty (item : MergedItem) :
    ∀ (l : List MergedItem) (seen : List String),
      item ∈ removeDuplicatesAux l seen → item.content ≠ "" := by
  intro l
  induction l with
  | nil => intro seen h; simp [removeDuplicatesAux] at h
  | cons r rs ih =>
    intro seen h
    by_cases hr : r.content = ""
    · exact ih seen (by simpa [removeDuplicatesAux, hr] using h)
    · rw [removeDuplicatesAux, if_neg hr] at h
      by_cases hd : (seen.any (fun s => isDupPair r.content s)) = true
      · exact ih seen (by simpa [hd] using h)
      · rw [if_neg hd] at h
        rcases List.mem_cons.mp h with h | h
        · exact h ▸ hr
        · exact ih _ h

/-! ## C3 — `decompose` fallback behaviour -/

/-- C3 counterexample: on syntactically valid JSON whose subtask entry
lacks the required `id` field, `decompose` raises a `KeyError` to its
caller instead of returning the single-fallback task list — refuting
"never raises ... whenever the LLM output is malformed or unparsable". -/
theorem claim3_counterexample :
    decompose "research the market" (.jsonObject [demoBadTaskData]) =
      .error "KeyError" := rfl

/-- C3 (amended): the fallback to a single `Subtask` wrapping the whole
goal (priority 1, no dependencies, default status/attempts) happens exactly
on a `json.JSONDecodeError`, i.e. when the LLM output is not valid JSON;
structurally malformed JSON (missing required subtask fields) instead
propagates a `KeyError`. -/
theorem claim3_decompose_fallback (goal : String) :
    decompose goal .invalidJson =
      .ok [{ id := "task_1", description := goal, priority := 1,
             dependencies := [], status := .pending, result := none,
             attempts := 0, max_attempts := 3 }] ∧
    ∀ pre post : List TaskData,
      decompose goal (.jsonObject (pre ++ demoBadTaskData :: post)) =
        (match (pre ++ demoBadTaskData :: post).mapM mkSubtask with
         | .ok ts => .ok ts
         | .error e => .error e) := by
  constructor
  · rfl
  · intro pre post
    simp only [decompose]
    cases (pre ++ demoBadTaskData :: post).mapM mkSubtask <;> rfl

/-! ## C7 — the duplicate-pair heuristic of the merger -/

/-- C7: inside `_remove_duplicates`, two texts that are both longer than
50 characters are treated as duplicates iff they are exactly equal, while
a pair that is not both-long is treated as duplicates iff one text is a
substring of the other. -/
theorem claim7_dup_heuristic (content seen : String) :
    (content.length > 50 → seen.length > 50 →
      (isDupPair content seen = true ↔ content = seen)) ∧
    (content.length ≤ 50 ∨ seen.length ≤ 50 →
      (isDupPair content seen = true ↔
        (content.toList <:+: seen.toList ∨ seen.toList <:+: content.toList))) := by
  constructor
  · intro h1 h2
    constructor
    · intro h
      rw [isDupPair] at h
      by_cases hc : (pyIn content seen || pyIn seen content) = true
      · rw [if_pos hc] at h
        rw [if_pos (by simp [h1, h2])] at h
        exact eq_of_beq h
      · rw [if_neg hc] at h; exact absurd h (by simp)
    · intro h
      subst h
      rw [isDupPair, if_pos, if_pos (by simp [h1])]
      · simp
      · have : pyIn content content = true := by
          simp [pyIn, List.infix_refl]
        simp [this]
  · intro hshort
    have hlen : (content.length > 50 && seen.length > 50) = false := by
      rcases hshort with h | h <;> simp <;> omega
    constructor
    · intro h
      rw [isDupPair] at h
      by_cases hc : (pyIn content seen || pyIn seen content) = true
      · rcases Bool.or_eq_true_iff.mp hc with h' | h'
        · exact Or.inl (of_decide_eq_true h')
        · exact Or.inr (of_decide_eq_true h')
      · rw [if_neg hc] at h; exact absurd h (by simp)
    · intro h
      have hc : (pyIn content seen || pyIn seen content) = true := by
        rcases h with h | h
        · exact Bool.or_eq_true_iff.mpr (Or.inl (decide_eq_true h))
        · exact Bool.or_eq_true_iff.mpr (Or.inr (decide_eq_true h))
      rw [isDupPair, if_pos hc, hlen]
      simp

/-- C7 witness: two equal 51-character texts are duplicates, and a short
substring pair is duplicates. -/
theorem claim7_witness :
    isDupPair (String.mk (List.replicate 51 'a'))
      (String.mk (List.replicate 51 'a')) = true ∧
    isDupPair "ab" "xaby" = true := by
  constructor
  · exact ((claim7_dup_heuristic _ _).1 (by decide) (by decide)).mpr rfl
  · exact ((claim7_dup_heuristic "ab" "xaby").2 (Or.inl (by decide))).mpr
      (Or.inl (by decide))

/-! ## C10 — merged results never contain empty content -/

/-- C10: `_merge_results` silently drops every item whose content string is
empty, so the merged total can be smaller than the sum of the two input
counts even when the kept items are no duplicates of each other: the
concrete one-memory/one-web example merges to a single item. -/
theorem claim10_empty_dropped :
    (∀ (now : String) (mem : List MemoryResult) (web : List WebResult)
        (item : MergedItem), item ∈ mergeResults now mem web →
        item.content ≠ "") ∧
    (mergeResults "t0" [demoEmptyMem] [demoWeb]).length = 1 ∧
    [demoEmptyMem].length + [demoWeb].length = 2 := by
  refine ⟨?_, ?_, rfl⟩
  · intro now mem web item h
    rw [mergeResults] at h
    exact mem_removeDuplicatesAux_ne_empty item _ []
      (List.mem_mergeSort.mp h)
  · rw [mergeResults, List.length_mergeSort]
    decide

/-- C10 witness: the surviving item of the concrete merge has non-empty
content. -/
theorem claim10_witness : (tagWeb "t0" demoWeb).content ≠ "" :=
  claim10_empty_dropped.1 "t0" [demoEmptyMem] [demoWeb] (tagWeb "t0" demoWeb)
    (by
      rw [mergeResults]
      refine List.mem_mergeSort.mpr ?_
      show tagWeb "t0" demoWeb ∈ ([tagWeb "t0" demoWeb] : List MergedItem)
      exact List.mem_singleton.mpr rfl)

/-! ## C8 — the quality critic's scoring contract -/

/-- C8 counterexample: with all five dimension scores 8 and a
provider-supplied overall of 7.77, `execute` returns overall 7.8
(`round(x, 1)` is applied), which is neither the provider-supplied value
nor the mean (8) of the five dimension scores — refuting "an overall score
equal to the provider-supplied value or, if absent, the mean of the five
dimension scores". -/
theorem claim8_counterexample :
    (criticExecute (some demoCriticData)).overall_score = 39/5 ∧
    (criticExecute (some demoCriticData)).overall_score ≠ 777/100 ∧
    (criticExecute (some demoCriticData)).overall_score ≠
      meanScores (criticExecute (some demoCriticData)).scores := by
  have hexec : (criticExecute (some demoCriticData)).overall_score =
      pyRound1 (777/100) := by
    simp [criticExecute, evaluateReport, demoCriticData]
  have hsc : ∀ k, (criticExecute (some demoCriticData)).scores k = 8 := by
    intro k
    simp [criticExecute, evaluateReport, demoCriticData, parseScore, clamp110]
    norm_num
  have hfloor : (⌊(10:ℚ) * (777/100)⌋ : ℤ) = 77 := by
    rw [show (10:ℚ) * (777/100) = 777/10 by norm_num, Int.floor_eq_iff]
    norm_num
  have hround : pyRound1 (777/100) = 39/5 := by
    rw [pyRound1, roundHalfEvenInt, hfloor]
    rw [if_neg (by norm_num), if_pos (by norm_num)]
    norm_num
  refine ⟨hexec.trans hround, ?_, ?_⟩
  · rw [hexec, hround]; norm_num
  · rw [hexec, hround, meanScores]
    simp only [hsc]
    norm_num

/-- C8 (amended): `execute` returns five fixed dimension scores, each
clamped to `[1, 10]` and defaulting to 5 when missing or unparsable; an
overall score equal to the provider-supplied value when present and
parsable, and otherwise to the mean of the five dimension scores — in both
cases rounded to one decimal place (Python's banker's rounding); and
`pass = true` iff the returned overall score is ≥ 7.0.  When the LLM
response is empty or its `scores` field is missing or not a dict, all five
scores and the overall default to 5 and the report fails. -/
theorem claim8_critic_contract (data : Option CriticData) :
    (∀ k, 1 ≤ (criticExecute data).scores k ∧
      (criticExecute data).scores k ≤ 10) ∧
    ((criticExecute data).pass = true ↔
      (criticExecute data).overall_score ≥ 7) ∧
    (∀ d raw, data = some d → d.scores = some raw →
      (∀ k, raw k = none ∨ raw k = some .unparsable →
        (criticExecute data).scores k = 5) ∧
      (∀ k q, raw k = some (.num q) →
        (criticExecute data).scores k = max 1 (min 10 q)) ∧
      (∀ q, d.overall = some (.num q) →
        (criticExecute data).overall_score = pyRound1 q) ∧
      ((d.overall = none ∨ d.overall = some .unparsable) →
        (criticExecute data).overall_score =
          pyRound1 (meanScores (criticExecute data).scores))) ∧
    ((data = none ∨ ∃ d, data = some d ∧ d.scores = none) →
      (∀ k, (criticExecute data).scores k = 5) ∧
      (criticExecute data).overall_score = 5 ∧
      (criticExecute data).pass = false) := by
  refine ⟨?_, ?_, ?_, ?_⟩
  · intro k
    rcases data with _ | d
    · constructor <;>
        norm_num [criticExecute, evaluateReport, defaultEvaluation]
    · rcases hs : d.scores with _ | raw
      · constructor <;>
          norm_num [criticExecute, evaluateReport, defaultEvaluation, hs]
      · have : (criticExecute (some d)).scores k =
            clamp110 (parseScore (raw k)) := by
          simp [criticExecute, evaluateReport, hs]
        rw [this, clamp110]
        constructor
        · exact le_max_left 1 _
        · exact max_le (by norm_num) (min_le_left 10 _)
  · simp [criticExecute]
  · intro d raw hd hs
    subst hd
    refine ⟨?_, ?_, ?_, ?_⟩
    · intro k hk
      rcases hk with hk | hk <;>
        norm_num [criticExecute, evaluateReport, hs, hk, parseScore, clamp110]
    · intro k q hk
      simp [criticExecute, evaluateReport, hs, hk, parseScore, clamp110]
    · intro q ho
      simp [criticExecute, evaluateReport, hs, ho]
    · intro ho
      have hscores : (criticExecute (some d)).scores =
          fun k => clamp110 (parseScore (raw k)) := by
        simp [criticExecute, evaluateReport, hs]
      rcases ho with ho | ho <;>
        rw [hscores] <;> simp [criticExecute, evaluateReport, hs, ho]
  · intro hdef
    rcases hdef with h | ⟨d, hd, hs⟩
    · subst h
      refine ⟨fun k => rfl, rfl, ?_⟩
      norm_num [criticExecute, evaluateReport, defaultEvaluation]
    · subst hd
      refine ⟨fun k => ?_, ?_, ?_⟩ <;>
        norm_num [criticExecute, evaluateReport, hs, defaultEvaluation]

/-- C8 witness: the contract applied to the concrete all-8 response with
provider overall 7.77. -/
theorem claim8_witness :
    (criticExecute (some demoCriticData)).scores .clarity = max 1 (min 10 8) ∧
    ((criticExecute (some demoCriticData)).pass = true ↔
      (criticExecute (some demoCriticData)).overall_score ≥ 7) ∧
    (criticExecute (some demoCriticData)).overall_score =
      pyRound1 (777/100) := by
  have h := claim8_critic_contract (some demoCriticData)
  obtain ⟨-, hpass, hmain, -⟩ := h
  obtain ⟨-, hnum, hover, -⟩ := hmain demoCriticData _ rfl rfl
  exact ⟨hnum .clarity 8 rfl, hpass, hover (777/100) rfl⟩

/-! ## C1 — the revision loop bound -/

theorem runLoop_never_pass (env : CoordEnv) (topic : String)
    (analysis : Analysis) (sources : List String)
    (w : WriterInput → DraftDict) (c : CriticInput → ReviewDict)
    (hw : ∀ i, env.writer i = .ok (w i))
    (hc : ∀ i, env.critic i = .ok (c i))
    (hcp : ∀ i, (c i).pass = false) :
    ∀ (fuel : Nat) (st : LoopState),
      (runLoop env topic analysis sources fuel st).2.length = fuel ∧
      (runLoop env topic analysis sources fuel st).1.revision_count =
        st.revision_count + fuel := by
  intro fuel
  induction fuel with
  | zero => intro st; exact ⟨rfl, rfl⟩
  | succ n ih =>
    intro st
    rw [runLoop]
    simp only [hw, hc, hcp, Bool.false_eq_true, if_false]
    constructor
    · rw [List.length_cons, (ih _).1]
    · rw [(ih _).2]
      show st.revision_count + 1 + n = st.revision_count + (n + 1)
      omega

theorem runLoop_first_input (env : CoordEnv) (topic : String)
    (analysis : Analysis) (sources : List String) (n : Nat) (st : LoopState) :
    ∀ i rest, (runLoop env topic analysis sources (n + 1) st).2 = i :: rest →
      i = loopWriterInput topic analysis sources st := by
  intro i rest h
  rw [runLoop] at h
  rcases hwr : env.writer (loopWriterInput topic analysis sources st)
      with e | draft
  · simp only [hwr, List.cons.injEq] at h
    exact h.1.symm
  · simp only [hwr] at h
    rcases hcr : env.critic { topic := topic, report := draft.report }
        with e | review
    · simp only [hcr, List.cons.injEq] at h
      exact h.1.symm
    · simp only [hcr] at h
      by_cases hp : review.pass
      · simp only [if_pos hp, List.cons.injEq] at h
        exact h.1.symm
      · simp only [if_neg hp, List.cons.injEq] at h
        exact h.1.symm

theorem runLoop_contract (env : CoordEnv) (topic : String)
    (analysis : Analysis) (sources : List String)
    (w : WriterInput → DraftDict) (c : CriticInput → ReviewDict)
    (hw : ∀ i, env.writer i = .ok (w i))
    (hc : ∀ i, env.critic i = .ok (c i))
    (hcp : ∀ i, (c i).pass = false)
    (st : LoopState) (hfb : st.feedback = none) (hrc : st.revision_count = 0) :
    (runLoop env topic analysis sources (maxRevisionRounds + 1)
      st).2.length = maxRevisionRounds + 1 ∧
    ((runLoop env topic analysis sources (maxRevisionRounds + 1) st).2.filter
      (fun i => i.feedback.isSome)).length ≤ maxRevisionRounds ∧
    (runLoop env topic analysis sources (maxRevisionRounds + 1)
      st).1.revision_count = maxRevisionRounds + 1 := by
  obtain ⟨hlen, hrev⟩ := runLoop_never_pass env topic analysis sources w c
    hw hc hcp (maxRevisionRounds + 1) st
  refine ⟨hlen, ?_, by rw [hrev, hrc]; omega⟩
  rcases hsplit : (runLoop env topic analysis sources
      (maxRevisionRounds + 1) st).2 with _ | ⟨i, rest⟩
  · rw [hsplit] at hlen
    exact absurd hlen (by simp [maxRevisionRounds])
  · have hi := runLoop_first_input env topic analysis sources
      maxRevisionRounds st i rest hsplit
    have hifb : i.feedback = none := by
      rw [hi, loopWriterInput]
      simp [truthyFeedback, hfb]
    rw [List.filter_cons]
    simp only [hifb, Option.isSome_none, Bool.false_eq_true, if_false]
    have hrest : rest.length = maxRevisionRounds := by
      rw [hsplit] at hlen
      simpa using hlen
    calc (rest.filter (fun i => i.feedback.isSome)).length
        ≤ rest.length := List.length_filter_le _ _
      _ = maxRevisionRounds := hrest

/-- C1 counterexample: with `max_revision_rounds = 2` and a critic that
never passes, `run` performs 3 Write calls but returns
`revision_count == 3`, not 2 — the counter is also incremented after the
final failed critique, refuting `revision_count == 2`. -/
theorem claim1_counterexample :
    (coordinatorRun demoCoordEnv "ev batteries").1.revision_count = 3 ∧
    (coordinatorRun demoCoordEnv "ev batteries").1.revision_count ≠ 2 ∧
    (coordinatorRun demoCoordEnv "ev batteries").2.length = 3 := by
  have h3 : (coordinatorRun demoCoordEnv "ev batteries").1.revision_count = 3 :=
    rfl
  refine ⟨h3, ?_, rfl⟩
  rw [h3]
  decide

/-- C1 (amended): with `max_revision_rounds = 2`, a writer that always
succeeds and a Critique stage whose review never has `pass = true`,
`ResearchCoordinator.run` performs exactly 3 Write calls of which at most
2 are revision passes (carry feedback), and the returned dictionary has
`revision_count == 3` — the counter also counts the final failed round. -/
theorem claim1_revision_bound (env : CoordEnv) (topic : String)
    (w : WriterInput → DraftDict) (c : CriticInput → ReviewDict)
    (hw : ∀ i, env.writer i = .ok (w i))
    (hc : ∀ i, env.critic i = .ok (c i))
    (hcp : ∀ i, (c i).pass = false) :
    (coordinatorRun env topic).2.length = 3 ∧
    ((coordinatorRun env topic).2.filter
      (fun i => i.feedback.isSome)).length ≤ 2 ∧
    (coordinatorRun env topic).1.revision_count = 3 := by
  exact runLoop_contract env _ _ _ w c hw hc hcp _ rfl rfl

/-- C1 witness: the amended bound applied to the concrete always-failing
critic environment. -/
theorem claim1_witness :
    (coordinatorRun demoCoordEnv "ev batteries").2.length = 3 ∧
    ((coordinatorRun demoCoordEnv "ev batteries").2.filter
      (fun i => i.feedback.isSome)).length ≤ 2 ∧
    (coordinatorRun demoCoordEnv "ev batteries").1.revision_count = 3 :=
  claim1_revision_bound demoCoordEnv "ev batteries" demoWriterFun
    demoCriticFun (fun _ => rfl) (fun _ => rfl) (fun _ => rfl)

/-! ## Nearest-neighbour selection lemmas -/

theorem bestByAux_mem {α : Type} (f : α → ℚ) :
    ∀ (l : List α) (cur : α), bestByAux f cur l ∈ cur :: l := by
  intro l
  induction l with
  | nil => intro cur; simp [bestByAux]
  | cons x xs ih =>
    intro cur
    rw [bestByAux]
    by_cases hc : f x > f cur
    · rw [if_pos hc]
      exact List.mem_cons_of_mem _ (ih x)
    · rw [if_neg hc]
      rcases List.mem_cons.mp (ih cur) with h | h
      · rw [h]; exact List.mem_cons_self _ _
      · exact List.mem_cons_of_mem _ (List.mem_cons_of_mem _ h)

theorem bestBy_mem {α : Type} (f : α → ℚ) (l : List α) (b : α)
    (h : bestBy f l = some b) : b ∈ l := by
  cases l with
  | nil => simp [bestBy] at h
  | cons x xs =>
    rw [bestBy] at h
    injection h with h
    exact h ▸ bestByAux_mem f xs x

theorem bestByAux_strictMax {α : Type} (f : α → ℚ) (d : α) :
    ∀ (l : List α) (cur : α), (cur = d ∨ f cur < f d) → d ∈ cur :: l →
      (∀ x ∈ l, x ≠ d → f x < f d) → bestByAux f cur l = d := by
  intro l
  induction l with
  | nil =>
    intro cur hcur hmem _
    rcases List.mem_cons.mp hmem with h | h
    · exact h.symm ▸ rfl
    · simp at h
  | cons x xs ih =>
    intro cur hcur hmem hlt
    rw [bestByAux]
    by_cases hx : x = d
    · subst hx
      rcases hcur with hcur | hcur
      · subst hcur
        apply ih
        · exact Or.inl (ite_self _)
        · rw [ite_self]; exact List.mem_cons_self _ _
        · intro y hy hyd; exact hlt y (List.mem_cons_of_mem _ hy) hyd
      · rw [if_pos hcur]
        apply ih
        · exact Or.inl rfl
        · exact List.mem_cons_self _ _
        · intro y hy hyd; exact hlt y (List.mem_cons_of_mem _ hy) hyd
    · have hfx : f x < f d := hlt x (List.mem_cons_self _ _) hx
      have hd_tail : d ∈ (if f x > f cur then x else cur) :: xs := by
        rcases hcur with hcur | hcur
        · subst hcur
          have : ¬ f x > f cur := not_lt.mpr hfx.le
          rw [if_neg this]
          exact List.mem_cons_self _ _
        · have hcd : cur ≠ d := by
            intro h; exact absurd (h ▸ hcur) (lt_irrefl _)
          have : d ∈ xs := by
            rcases List.mem_cons.mp hmem with h | h
            · exact absurd h.symm hcd
            · rcases List.mem_cons.mp h with h | h
              · exact absurd h.symm hx
              · exact h
          exact List.mem_cons_of_mem _ this
      apply ih
      · by_cases hc : f x > f cur
        · rw [if_pos hc]; exact Or.inr hfx
        · rw [if_neg hc]
          rcases hcur with hcur | hcur
          · exact Or.inl hcur
          · exact Or.inr hcur
      · exact hd_tail
      · intro y hy hyd; exact hlt y (List.mem_cons_of_mem _ hy) hyd

theorem bestBy_strictMax {α : Type} (f : α → ℚ) (l : List α) (d : α)
    (hd : d ∈ l) (hmax : ∀ x ∈ l, x ≠ d → f x < f d) :
    bestBy f l = some d := by
  cases l with
  | nil => simp at hd
  | cons x xs =>
    rw [bestBy]
    congr 1
    apply bestByAux_strictMax
    · by_cases hx : x = d
      · exact Or.inl hx
      · exact Or.inr (hmax x (List.mem_cons_self _ _) hx)
    · exact hd
    · intro y hy hyd; exact hmax y (List.mem_cons_of_mem _ hy) hyd

theorem selectTop_one {α : Type} [DecidableEq α] (f : α → ℚ) (l : List α) :
    selectTop f 1 l =
      (match bestBy f l with
       | none => []
       | some b => [b]) := by
  cases h : bestBy f l <;> simp [selectTop, h]

/-! ## Stripping lemmas -/

theorem head_dropWhile_false {α : Type} (p : α → Bool) :
    ∀ (l : List α) (x : α), (l.dropWhile p).head? = some x → p x = false := by
  intro l
  induction l with
  | nil => intro x h; simp [List.dropWhile] at h
  | cons a t ih =>
    intro x h
    by_cases ha : p a = true
    · rw [List.dropWhile_cons_of_pos ha] at h
      exact ih x h
    · rw [List.dropWhile_cons_of_neg ha] at h
      injection h with h
      rw [← h]
      exact Bool.not_eq_true _ ▸ ha

theorem dropWhile_idem {α : Type} (p : α → Bool) (l : List α) :
    (l.dropWhile p).dropWhile p = l.dropWhile p := by
  cases h : l.dropWhile p with
  | nil => rfl
  | cons a t =>
    have ha : p a = false :=
      head_dropWhile_false p l a (by rw [h]; rfl)
    exact List.dropWhile_cons_of_neg (by rw [ha]; simp)

theorem pyStripList_idem (l : List Char) :
    pyStripList (pyStripList l) = pyStripList l := by
  have hPpre : ((l.dropWhile Char.isWhitespace).reverse.dropWhile
      Char.isWhitespace).reverse <+: l.dropWhile Char.isWhitespace :=
    List.reverse_suffix.mp
      (by rw [List.reverse_reverse]; exact List.dropWhile_suffix _)
  have h1 : (((l.dropWhile Char.isWhitespace).reverse.dropWhile
      Char.isWhitespace).reverse).dropWhile Char.isWhitespace =
      ((l.dropWhile Char.isWhitespace).reverse.dropWhile
        Char.isWhitespace).reverse := by
    cases hS : ((l.dropWhile Char.isWhitespace).reverse.dropWhile
        Char.isWhitespace).reverse with
    | nil => rfl
    | cons x t =>
      obtain ⟨rest, hrest⟩ := hPpre
      rw [hS] at hrest
      have hx : (l.dropWhile Char.isWhitespace).head? = some x := by
        rw [← hrest]; rfl
      have hw : Char.isWhitespace x = false :=
        head_dropWhile_false _ l x hx
      exact List.dropWhile_cons_of_neg (by rw [hw]; simp)
  rw [pyStripList, pyStripList, h1, List.reverse_reverse, dropWhile_idem]

theorem pyStrip_idem (s : String) : pyStrip (pyStrip s) = pyStrip s := by
  show String.mk (pyStripList (pyStripList s.toList)) =
    String.mk (pyStripList s.toList)
  rw [pyStripList_idem]

/-! ## Memory-store characterization lemmas -/

theorem createEmbedding_ok (env : MemEnv) (c : CacheState) (text : String)
    (h : pyStrip text ≠ "") (hemb : env.embedApiFails = false) :
    ∃ c', createEmbedding env c text = .ok c' := by
  rw [createEmbedding, if_neg h]
  by_cases hm : text ∈ ({ c with total_requests := c.total_requests + 1
    } : CacheState).entries
  · exact ⟨_, by rw [if_pos hm]⟩
  · rw [if_neg hm, hemb]
    exact ⟨_, by rw [if_neg (by simp)]⟩

theorem searchMemory_docs (env : MemEnv) (s : MemState) (q : String)
    (k : Nat) :
    (∀ e, searchMemory env s q k = .error e → e.2.docs = s.docs) ∧
    (∀ r, searchMemory env s q k = .ok r → r.2.docs = s.docs) := by
  constructor <;> intro x h <;> rw [searchMemory] at h <;>
    by_cases hq : pyStrip q = ""
  · rw [if_pos hq] at h
    injection h with h
    rw [← h]
  · rw [if_neg hq] at h
    rcases hce : createEmbedding env s.cache (pyStrip q) with e' | c' <;>
      simp only [hce] at h
    · injection h with h
      rw [← h]
    · by_cases hf : env.queryFails = true
      · rw [if_pos hf] at h
        injection h with h
        rw [← h]
      · rw [if_neg hf] at h
        exact absurd h (by simp)
  · rw [if_pos hq] at h
    exact absurd h (by simp)
  · rw [if_neg hq] at h
    rcases hce : createEmbedding env s.cache (pyStrip q) with e' | c' <;>
      simp only [hce] at h
    · exact absurd h (by simp)
    · by_cases hf : env.queryFails = true
      · rw [if_pos hf] at h
        exact absurd h (by simp)
      · rw [if_neg hf] at h
        injection h with h
        rw [← h]

theorem checkDuplicate_docs (env : MemEnv) (s : MemState) (text : String)
    (θ : ℚ) : ((checkDuplicate env s text θ).2).docs = s.docs := by
  rw [checkDuplicate]
  split
  · rfl
  · rcases hsm : searchMemory env s text 1 with e | r
    · exact (searchMemory_docs env s text 1).1 e hsm
    · have hr := (searchMemory_docs env s text 1).2 r hsm
      rcases r with ⟨results, s'⟩
      cases results with
      | nil => exact hr
      | cons most rest =>
        by_cases hθ : most.similarity ≥ θ
        · simp only [if_pos hθ]; exact hr
        · simp only [if_neg hθ]; exact hr

theorem searchMemory_top1 (env : MemEnv) (s : MemState) (q : String)
    (hq : pyStrip q ≠ "")
    (hemb : env.embedApiFails = false) (hqf : env.queryFails = false) :
    ∃ c', searchMemory env s q 1 =
      .ok ((match bestBy (fun d => env.sim (pyStrip q) d.text) s.docs with
            | none => []
            | some d => [{ id := d.id, text := d.text, metadata := d.metadata,
                           similarity :=
                             1 - (1 - env.sim (pyStrip q) d.text) }]),
           { s with cache := c' }) := by
  obtain ⟨c', hce⟩ := createEmbedding_ok env s.cache (pyStrip q)
    (by rw [pyStrip_idem]; exact hq) hemb
  refine ⟨c', ?_⟩
  rw [searchMemory, if_neg hq]
  simp only [hce, hqf, Bool.false_eq_true, if_false]
  rw [chromaQuery, selectTop_one]
  cases hb : bestBy (fun d => env.sim (pyStrip q) d.text) s.docs <;> simp [hb]

theorem checkDuplicate_none_below (env : MemEnv) (s : MemState) (q : String)
    (θ : ℚ) (hq : q ≠ "") (htr : pyStrip q = q)
    (hemb : env.embedApiFails = false) (hqf : env.queryFails = false)
    (hbelow : ∀ d ∈ s.docs, env.sim q d.text < θ) :
    ∃ c', checkDuplicate env s q θ = (none, { s with cache := c' }) := by
  obtain ⟨c', hsm⟩ := searchMemory_top1 env s q (htr.symm ▸ hq) hemb hqf
  refine ⟨c', ?_⟩
  rw [checkDuplicate, if_neg (htr.symm ▸ hq)]
  simp only [hsm]
  cases hb : bestBy (fun d => env.sim (pyStrip q) d.text) s.docs with
  | none => simp [hb]
  | some d =>
    have hd : d ∈ s.docs := bestBy_mem _ _ _ hb
    have hlt : env.sim q d.text < θ := hbelow d hd
    simp only [hb]
    rw [if_neg]
    rw [sub_sub_cancel, htr]
    exact not_le.mpr hlt

theorem checkDuplicate_some_max (env : MemEnv) (s : MemState) (q : String)
    (θ : ℚ) (d : MemoryDoc) (hq : q ≠ "") (htr : pyStrip q = q)
    (hemb : env.embedApiFails = false) (hqf : env.queryFails = false)
    (hd : d ∈ s.docs)
    (hmax : ∀ x ∈ s.docs, x ≠ d → env.sim q x.text < env.sim q d.text)
    (hθ : θ ≤ env.sim q d.text) :
    ∃ c', checkDuplicate env s q θ =
      (some { id := d.id, text := d.text, metadata := d.metadata,
              similarity := env.sim q d.text }, { s with cache := c' }) := by
  obtain ⟨c', hsm⟩ := searchMemory_top1 env s q (htr.symm ▸ hq) hemb hqf
  refine ⟨c', ?_⟩
  rw [checkDuplicate, if_neg (htr.symm ▸ hq)]
  simp only [hsm]
  have hb : bestBy (fun d => env.sim (pyStrip q) d.text) s.docs = some d := by
    apply bestBy_strictMax _ _ _ hd
    intro x hx hxd
    rw [htr]
    exact hmax x hx hxd
  simp only [hb]
  rw [if_pos]
  · rw [sub_sub_cancel, htr]
  · rw [sub_sub_cancel, htr]
    exact hθ

/-! ## C6 — `check_duplicate`'s nearest-neighbour contract -/

/-- C6 counterexample: `check_duplicate` on an empty store with an empty
embedding cache leaves the document store untouched but mutates the
embedding generator (the request counter advances and the query text is
memoized) — refuting "the call never mutates the store or any other
component state". -/
theorem claim6_counterexample :
    (checkDuplicate demoMemEnv {} "ab" (95/100)).2.cache.total_requests = 1 ∧
    (checkDuplicate demoMemEnv {} "ab" (95/100)).2.cache.entries = ["ab"] ∧
    (checkDuplicate demoMemEnv {} "ab" (95/100)).2 ≠ ({} : MemState) := by
  refine ⟨rfl, rfl, ?_⟩
  intro h
  have h1 : (checkDuplicate demoMemEnv {} "ab"
    (95/100)).2.cache.total_requests = 1 := rfl
  rw [h] at h1
  exact absurd h1 (by decide)

/-- C6 (amended): for every text that is non-empty after stripping,
`check_duplicate(text, threshold)` returns the store's unique nearest
neighbour (id, text, metadata, similarity) iff that neighbour's similarity
is ≥ threshold and returns nothing otherwise; it never mutates the
document store — the embedding cache, however, may advance (its counters
and memoized entries), which is the one way the call does mutate component
state. -/
theorem claim6_check_duplicate :
    (∀ (env : MemEnv) (s : MemState) (text : String) (θ : ℚ),
      ((checkDuplicate env s text θ).2).docs = s.docs) ∧
    (∀ (env : MemEnv) (s : MemState) (q : String) (θ : ℚ) (d : MemoryDoc),
      q ≠ "" → pyStrip q = q →
      env.embedApiFails = false → env.queryFails = false →
      d ∈ s.docs →
      (∀ x ∈ s.docs, x ≠ d → env.sim q x.text < env.sim q d.text) →
      (θ ≤ env.sim q d.text →
        ∃ c', checkDuplicate env s q θ =
          (some { id := d.id, text := d.text, metadata := d.metadata,
                  similarity := env.sim q d.text },
           { s with cache := c' })) ∧
      (env.sim q d.text < θ →
        ∃ c', checkDuplicate env s q θ = (none, { s with cache := c' }))) := by
  refine ⟨checkDuplicate_docs, ?_⟩
  intro env s q θ d hq htr hemb hqf hd hmax
  constructor
  · intro hθ
    exact checkDuplicate_some_max env s q θ d hq htr hemb hqf hd hmax hθ
  · intro hθ
    apply checkDuplicate_none_below env s q θ hq htr hemb hqf
    intro x hx
    by_cases hxd : x = d
    · rw [hxd]; exact hθ
    · exact lt_trans (hmax x hx hxd) hθ

/-- C6 witness: the contract applied to a one-document store holding
`"hello"` queried with `"hello"` (similarity 1 ≥ 0.95) and with `"other"`
(similarity 0 < 0.95). -/
theorem claim6_witness :
    (∃ c', checkDuplicate demoMemEnv
        { docs := [{ id := "d1", text := "hello", metadata := [] }],
          cache := {} } "hello" (95/100) =
      (some { id := "d1", text := "hello", metadata := [],
              similarity := demoMemEnv.sim "hello" "hello" },
       { docs := [{ id := "d1", text := "hello", metadata := [] }],
         cache := c' })) ∧
    (∃ c', checkDuplicate demoMemEnv
        { docs := [{ id := "d1", text := "hello", metadata := [] }],
          cache := {} } "other" (95/100) =
      (none,
       { docs := [{ id := "d1", text := "hello", metadata := [] }],
         cache := c' })) := by
  constructor
  · refine (claim6_check_duplicate.2 demoMemEnv _ "hello" (95/100)
      { id := "d1", text := "hello", metadata := [] } (by decide) (by decide)
      rfl rfl (by simp) ?_).1 ?_
    · intro x hx hxd
      simp at hx
      exact absurd hx hxd
    · show (95:ℚ)/100 ≤ if "hello" = "hello" then 1 else 0
      rw [if_pos rfl]
      norm_num
  · refine (claim6_check_duplicate.2 demoMemEnv _ "other" (95/100)
      { id := "d1", text := "hello", metadata := [] } (by decide) (by decide)
      rfl rfl (by simp) ?_).2 ?_
    · intro x hx hxd
      simp at hx
      exact absurd hx hxd
    · show (if "other" = "hello" then (1:ℚ) else 0) < 95/100
      rw [if_neg (by decide)]
      norm_num

/-! ## C2 — idempotent insertion -/

/-- C2: with duplicate checking enabled, a deterministic embedding
provider (`sim t t = 1`) and a store holding no near-duplicate of `t`,
calling `add_to_memory(t)` twice returns the same document id both times
(the first call's fresh id) and grows the store by exactly one document,
not two. -/
theorem claim2_add_idempotent (env : MemEnv) (s : MemState) (t : String)
    (meta₁ meta₂ : Option (List (String × String))) (f₁ f₂ now₁ now₂ : String)
    (ht : pyStrip t ≠ "") (hself : env.sim (pyStrip t) (pyStrip t) = 1)
    (hnodup : ∀ d ∈ s.docs, env.sim (pyStrip t) d.text < 95/100)
    (hemb : env.embedApiFails = false) (hqf : env.queryFails = false) :
    ∃ s₁ s₂,
      addToMemory env s t meta₁ none true f₁ now₁ = .ok (f₁, s₁) ∧
      addToMemory env s₁ t meta₂ none true f₂ now₂ = .ok (f₁, s₂) ∧
      s₁.docs.length = s.docs.length + 1 ∧
      s₂.docs.length = s.docs.length + 1 := by
  have htr : pyStrip (pyStrip t) = pyStrip t := pyStrip_idem t
  obtain ⟨c₁, hdup₁⟩ := checkDuplicate_none_below env s (pyStrip t) (95/100)
    ht htr hemb hqf hnodup
  obtain ⟨c₂, hce₂⟩ := createEmbedding_ok env
    ({ s with cache := c₁ } : MemState).cache (pyStrip t)
    (by rw [htr]; exact ht) hemb
  set newDoc : MemoryDoc :=
    { id := f₁, text := pyStrip t,
      metadata := stampMetadata meta₁ now₁ (pyStrip t) } with hnd
  refine ⟨{ docs := s.docs ++ [newDoc], cache := c₂ }, ?_⟩
  have hadd₁ : addToMemory env s t meta₁ none true f₁ now₁ =
      .ok (f₁, { docs := s.docs ++ [newDoc], cache := c₂ }) := by
    rw [addToMemory, if_neg ht]
    simp only [if_pos, hdup₁, hce₂, Option.getD]
  have hmem : newDoc ∈ s.docs ++ [newDoc] := by simp
  have hmax : ∀ x ∈ s.docs ++ [newDoc], x ≠ newDoc →
      env.sim (pyStrip t) x.text < env.sim (pyStrip t) newDoc.text := by
    intro x hx hxd
    rcases List.mem_append.mp hx with hx | hx
    · show env.sim (pyStrip t) x.text < env.sim (pyStrip t) (pyStrip t)
      rw [hself]
      calc env.sim (pyStrip t) x.text < 95/100 := hnodup x hx
        _ < 1 := by norm_num
    · exact absurd (List.mem_singleton.mp hx) hxd
  obtain ⟨c₃, hdup₂⟩ := checkDuplicate_some_max env
    { docs := s.docs ++ [newDoc], cache := c₂ } (pyStrip t) (95/100) newDoc
    ht htr hemb hqf hmem hmax
    (by show (95:ℚ)/100 ≤ env.sim (pyStrip t) (pyStrip t)
        rw [hself]; norm_num)
  refine ⟨{ docs := s.docs ++ [newDoc], cache := c₃ }, hadd₁, ?_, by simp, by simp⟩
  rw [addToMemory, if_neg ht]
  simp only [if_pos, hdup₂]

/-- C2 witness: the idempotence contract at a concrete empty store with
the all-or-nothing similarity oracle. -/
theorem claim2_witness :
    ∃ s₁ s₂,
      addToMemory demoMemEnv {} "hello" none none true "id-1" "t0" =
        .ok ("id-1", s₁) ∧
      addToMemory demoMemEnv s₁ "hello" none none true "id-2" "t1" =
        .ok ("id-1", s₂) ∧
      s₁.docs.length = (({} : MemState)).docs.length + 1 ∧
      s₂.docs.length = (({} : MemState)).docs.length + 1 :=
  claim2_add_idempotent demoMemEnv {} "hello" none none "id-1" "id-2"
    "t0" "t1" (by decide)
    (by show (if pyStrip "hello" = pyStrip "hello" then (1:ℚ) else 0) = 1
        rw [if_pos rfl])
    (by intro d hd; simp at hd) rfl rfl

/-! ## C9 — `check_duplicate` never raises -/

theorem checkDuplicate_none_of_queryFails (env : MemEnv) (s : MemState)
    (text : String) (θ : ℚ) (hqf : env.queryFails = true) :
    (checkDuplicate env s text θ).1 = none := by
  by_cases h : pyStrip text = ""
  · rw [checkDuplicate, if_pos h]
  · rw [checkDuplicate, if_neg h]
    rcases hce : createEmbedding env s.cache (pyStrip text) with e | c'
    · rw [searchMemory, if_neg h]
      simp only [hce]
    · rw [searchMemory, if_neg h]
      simp only [hce, hqf, if_true]

/-- C9: `check_duplicate` returns nothing instead of raising: immediately
for empty/whitespace-only text; when the vector-store query raises; and
when the embedding call raises (cache miss with a failing provider).
Consequently `add_to_memory` with duplicate checking enabled still
succeeds when the duplicate check's query raises. -/
theorem claim9_check_duplicate_total :
    (∀ (env : MemEnv) (s : MemState) (text : String) (θ : ℚ),
      pyStrip text = "" → checkDuplicate env s text θ = (none, s)) ∧
    (∀ (env : MemEnv) (s : MemState) (text : String) (θ : ℚ),
      env.queryFails = true → (checkDuplicate env s text θ).1 = none) ∧
    (∀ (env : MemEnv) (s : MemState) (text : String) (θ : ℚ),
      env.embedApiFails = true → pyStrip text ∉ s.cache.entries →
      (checkDuplicate env s text θ).1 = none) ∧
    (∀ (env : MemEnv) (s : MemState) (t : String)
        (meta : Option (List (String × String))) (f now : String),
      env.queryFails = true → env.embedApiFails = false → pyStrip t ≠ "" →
      ∃ r, addToMemory env s t meta none true f now = .ok r) := by
  refine ⟨?_, ?_, ?_, ?_⟩
  · intro env s text θ h
    rw [checkDuplicate, if_pos h]
  · intro env s text θ hqf
    exact checkDuplicate_none_of_queryFails env s text θ hqf
  · intro env s text θ hemb hmem
    by_cases h : pyStrip text = ""
    · rw [checkDuplicate, if_pos h]
    · rw [checkDuplicate, if_neg h, searchMemory, if_neg h, createEmbedding,
        if_neg (by rw [pyStrip_idem]; exact h)]
      rw [if_neg (by simpa using hmem), if_pos hemb]
  · intro env s t meta f now hqf hemb ht
    rcases hcd : checkDuplicate env s (pyStrip t) (95/100) with ⟨o, s'⟩
    have ho : o = none := by
      have h2 := checkDuplicate_none_of_queryFails env s (pyStrip t)
        (95/100) hqf
      rw [hcd] at h2
      exact h2
    subst ho
    obtain ⟨c', hce⟩ := createEmbedding_ok env s'.cache (pyStrip t)
      (by rw [pyStrip_idem]; exact ht) hemb
    refine ⟨(f,
        { docs := s'.docs ++
            [{ id := f, text := pyStrip t,
               metadata := stampMetadata meta now (pyStrip t) }],
          cache := c' }), ?_⟩
    rw [addToMemory, if_neg ht]
    simp only [if_pos, hcd, hce, Option.getD]

/-- C9 witness: whitespace-only text, a raising query, a raising embedding
call, and the insertion that still succeeds when the duplicate check's
query raises. -/
theorem claim9_witness :
    checkDuplicate demoMemEnv ({} : MemState) "   " (95/100) =
      (none, ({} : MemState)) ∧
    (checkDuplicate demoMemEnvQF {} "hello" (95/100)).1 = none ∧
    (checkDuplicate demoMemEnvEF {} "hello" (95/100)).1 = none ∧
    (∃ r, addToMemory demoMemEnvQF {} "hello" none none true "id-9" "t9" =
      .ok r) := by
  refine ⟨claim9_check_duplicate_total.1 demoMemEnv {} "   " (95/100)
    (by decide),
    claim9_check_duplicate_total.2.1 demoMemEnvQF {} "hello" (95/100) rfl,
    claim9_check_duplicate_total.2.2.1 demoMemEnvEF {} "hello" (95/100) rfl
      (by decide),
    claim9_check_duplicate_total.2.2.2 demoMemEnvQF {} "hello" none "id-9"
      "t9" rfl rfl (by decide)⟩

/-! ## `firstMin` selection lemmas -/

theorem firstMin_none_sound (p : Subtask → Bool) :
    ∀ l : List Subtask, firstMin p l = none → ∀ t ∈ l, p t = false := by
  intro l
  induction l with
  | nil => intro _ t ht; simp at ht
  | cons a as ih =>
    intro h t ht
    rw [firstMin] at h
    cases hts : firstMin p as with
    | none =>
      simp only [hts] at h
      by_cases pa : p a = true
      · rw [if_pos pa] at h
        exact absurd h (by simp)
      · rcases List.mem_cons.mp ht with h' | h'
        · rw [h']
          exact Bool.not_eq_true _ ▸ pa
        · exact ih hts t h'
    | some jb =>
      obtain ⟨j, b⟩ := jb
      simp only [hts] at h
      by_cases pa : p a = true
      · rw [if_pos pa] at h
        by_cases hpr : b.priority < a.priority
        · rw [if_pos hpr] at h; exact absurd h (by simp)
        · rw [if_neg hpr] at h; exact absurd h (by simp)
      · rw [if_neg pa] at h; exact absurd h (by simp)

theorem firstMin_none_of_all (p : Subtask → Bool) :
    ∀ l : List Subtask, (∀ t ∈ l, p t = false) → firstMin p l = none := by
  intro l
  induction l with
  | nil => intro _; rfl
  | cons a as ih =>
    intro h
    rw [firstMin, ih (fun t ht => h t (List.mem_cons_of_mem a ht))]
    rw [if_neg (by rw [h a (List.mem_cons_self a as)]; simp)]

theorem firstMin_sound (p : Subtask → Bool) :
    ∀ (l : List Subtask) (i : Nat) (t : Subtask),
      firstMin p l = some (i, t) →
      ∃ hi : i < l.length, l.get ⟨i, hi⟩ = t ∧ p t = true ∧
        (∀ u ∈ l, p u = true → t.priority ≤ u.priority) ∧
        (∀ j (hj : j < l.length), j < i → p (l.get ⟨j, hj⟩) = true →
          t.priority < (l.get ⟨j, hj⟩).priority) := by
  intro l
  induction l with
  | nil => intro i t h; simp [firstMin] at h
  | cons a as ih =>
    intro i t h
    rw [firstMin] at h
    cases hts : firstMin p as with
    | none =>
      simp only [hts] at h
      have hall : ∀ u ∈ as, p u = false := firstMin_none_sound p as hts
      by_cases pa : p a = true
      · rw [if_pos pa] at h
        injection h with h
        rw [Prod.mk.injEq] at h
        obtain ⟨hi, ht⟩ := h
        subst hi; subst ht
        refine ⟨Nat.succ_pos _, rfl, pa, ?_, ?_⟩
        · intro u hu hpu
          rcases List.mem_cons.mp hu with h' | h'
          · rw [h']
          · exact absurd hpu (by rw [hall u h']; simp)
        · intro j hj hji
          omega
      · rw [if_neg pa] at h
        exact absurd h (by simp)
    | some jb =>
      obtain ⟨j, b⟩ := jb
      simp only [hts] at h
      obtain ⟨hjlen, hbget, hpb, hbmin, hbfirst⟩ := ih j b hts
      by_cases pa : p a = true
      · rw [if_pos pa] at h
        by_cases hpr : b.priority < a.priority
        · rw [if_pos hpr] at h
          injection h with h
          rw [Prod.mk.injEq] at h
          obtain ⟨hi, ht⟩ := h
          subst hi; subst ht
          refine ⟨Nat.succ_lt_succ hjlen, hbget, hpb, ?_, ?_⟩
          · intro u hu hpu
            rcases List.mem_cons.mp hu with h' | h'
            · rw [h']; exact le_of_lt hpr
            · exact hbmin u h' hpu
          · intro j' hj' hji hpj
            cases j' with
            | zero => exact hpr
            | succ j'' =>
              exact hbfirst j'' (Nat.lt_of_succ_lt_succ hj')
                (Nat.lt_of_succ_lt_succ hji) hpj
        · rw [if_neg hpr] at h
          injection h with h
          rw [Prod.mk.injEq] at h
          obtain ⟨hi, ht⟩ := h
          subst hi; subst ht
          refine ⟨Nat.succ_pos _, rfl, pa, ?_, ?_⟩
          · intro u hu hpu
            rcases List.mem_cons.mp hu with h' | h'
            · rw [h']
            · calc a.priority ≤ b.priority := le_of_not_lt hpr
                _ ≤ u.priority := hbmin u h' hpu
          · intro j' hj' hji
            omega
      · rw [if_neg pa] at h
        injection h with h
        rw [Prod.mk.injEq] at h
        obtain ⟨hi, ht⟩ := h
        subst hi; subst ht
        refine ⟨Nat.succ_lt_succ hjlen, hbget, hpb, ?_, ?_⟩
        · intro u hu hpu
          rcases List.mem_cons.mp hu with h' | h'
          · exact absurd hpu (by rw [h']; simp [pa])
          · exact hbmin u h' hpu
        · intro j' hj' hji hpj
          cases j' with
          | zero => exact absurd hpj (by simp [pa])
          | succ j'' =>
            exact hbfirst j'' (Nat.lt_of_succ_lt_succ hj')
              (Nat.lt_of_succ_lt_succ hji) hpj

/-! ## C4 — scheduler selection -/

/-- C4: `get_next_task` hands out only tasks whose dependencies are all
completed and whose attempts are below their budget; the selected task is
the first-declared lowest-priority eligible pending task (or, exactly when
no pending task is eligible, the first-declared lowest-priority retryable
failed one); handing it out sets its status to `in_progress`, increments
its attempts and changes nothing else; and when no task is eligible at
all the call returns nothing and leaves every task unchanged. -/
theorem claim4_next_task (tasks : List Subtask) :
    (∀ t' tasks', getNextTask tasks = (some t', tasks') →
      ∃ i, ∃ hi : i < tasks.length,
        t' = { tasks.get ⟨i, hi⟩ with
               status := .in_progress,
               attempts := (tasks.get ⟨i, hi⟩).attempts + 1 } ∧
        tasks' = tasks.set i t' ∧
        (tasks.get ⟨i, hi⟩).attempts < (tasks.get ⟨i, hi⟩).max_attempts ∧
        dependenciesMet tasks (tasks.get ⟨i, hi⟩) = true ∧
        (((tasks.get ⟨i, hi⟩).status = .pending ∧
          (∀ u ∈ tasks, eligiblePending tasks u = true →
            (tasks.get ⟨i, hi⟩).priority ≤ u.priority) ∧
          (∀ j (hj : j < tasks.length), j < i →
            eligiblePending tasks (tasks.get ⟨j, hj⟩) = true →
            (tasks.get ⟨i, hi⟩).priority < (tasks.get ⟨j, hj⟩).priority)) ∨
         ((tasks.get ⟨i, hi⟩).status = .failed ∧
          (∀ u ∈ tasks, eligiblePending tasks u = false) ∧
          (∀ u ∈ tasks, eligibleRetry tasks u = true →
            (tasks.get ⟨i, hi⟩).priority ≤ u.priority) ∧
          (∀ j (hj : j < tasks.length), j < i →
            eligibleRetry tasks (tasks.get ⟨j, hj⟩) = true →
            (tasks.get ⟨i, hi⟩).priority < (tasks.get ⟨j, hj⟩).priority)))) ∧
    ((∀ u ∈ tasks, eligiblePending tasks u = false ∧
        eligibleRetry tasks u = false) →
      getNextTask tasks = (none, tasks)) := by
  constructor
  · intro t' tasks' h
    rw [getNextTask] at h
    cases h₁ : firstMin (eligiblePending tasks) tasks with
    | some it =>
      obtain ⟨i, tsel⟩ := it
      simp only [h₁] at h
      rw [Prod.mk.injEq] at h
      obtain ⟨hsome, hset⟩ := h
      injection hsome with ht'
      obtain ⟨hi, hget, hp, hmin, hfirst⟩ :=
        firstMin_sound (eligiblePending tasks) tasks i tsel h₁
      have hp' := hp
      rw [eligiblePending, Bool.and_eq_true, Bool.and_eq_true] at hp'
      obtain ⟨⟨hst, hdep⟩, hatt⟩ := hp'
      refine ⟨i, hi, ?_, ?_, ?_, ?_, ?_⟩
      · rw [← ht', hget]
      · rw [← hset, ← ht']
      · rw [hget]; exact of_decide_eq_true hatt
      · rw [hget]; exact hdep
      · refine Or.inl ⟨?_, ?_, ?_⟩
        · rw [hget]; exact eq_of_beq hst
        · intro u hu hpu; rw [hget]; exact hmin u hu hpu
        · intro j hj hji hpj; rw [hget]; exact hfirst j hj hji hpj
    | none =>
      simp only [h₁] at h
      cases h₂ : firstMin (eligibleRetry tasks) tasks with
      | some it =>
        obtain ⟨i, tsel⟩ := it
        simp only [h₂] at h
        rw [Prod.mk.injEq] at h
        obtain ⟨hsome, hset⟩ := h
        injection hsome with ht'
        obtain ⟨hi, hget, hp, hmin, hfirst⟩ :=
          firstMin_sound (eligibleRetry tasks) tasks i tsel h₂
        have hp' := hp
        rw [eligibleRetry, Bool.and_eq_true, Bool.and_eq_true] at hp'
        obtain ⟨⟨hst, hatt⟩, hdep⟩ := hp'
        refine ⟨i, hi, ?_, ?_, ?_, ?_, ?_⟩
        · rw [← ht', hget]
        · rw [← hset, ← ht']
        · rw [hget]; exact of_decide_eq_true hatt
        · rw [hget]; exact hdep
        · refine Or.inr ⟨?_, ?_, ?_, ?_⟩
          · rw [hget]; exact eq_of_beq hst
          · exact firstMin_none_sound (eligiblePending tasks) tasks h₁
          · intro u hu hpu; rw [hget]; exact hmin u hu hpu
          · intro j hj hji hpj; rw [hget]; exact hfirst j hj hji hpj
      | none =>
        simp only [h₂] at h
        rw [Prod.mk.injEq] at h
        exact absurd h.1 (by simp)
  · intro hall
    rw [getNextTask,
      firstMin_none_of_all (eligiblePending tasks) tasks
        (fun u hu => (hall u hu).1),
      firstMin_none_of_all (eligibleRetry tasks) tasks
        (fun u hu => (hall u hu).2)]

/-- C4 witness: a fully blocked set (one failed task with its budget
exhausted) makes `get_next_task` return nothing and change nothing. -/
theorem claim4_witness : getNextTask [demoBlocked] = (none, [demoBlocked]) :=
  (claim4_next_task [demoBlocked]).2 (by decide)

/-! ## C5 — retry budgets are permanent -/

theorem set_preserves (tasks : List Subtask) (i : Nat) (t t' : Subtask)
    (hti : tasks[i]? = some t)
    (hid : t'.id = t.id) (hmax : t'.max_attempts = t.max_attempts)
    (hatt : t.attempts ≤ t'.attempts) :
    ∀ k (hk : k < tasks.length) (hk2 : k < (tasks.set i t').length),
      ((tasks.set i t').get ⟨k, hk2⟩).id = (tasks.get ⟨k, hk⟩).id ∧
      ((tasks.set i t').get ⟨k, hk2⟩).max_attempts =
        (tasks.get ⟨k, hk⟩).max_attempts ∧
      (tasks.get ⟨k, hk⟩).attempts ≤
        ((tasks.set i t').get ⟨k, hk2⟩).attempts := by
  intro k hk hk2
  by_cases hik : i = k
  · subst hik
    rw [List.get_set_eq]
    obtain ⟨hlt, hgeti⟩ := List.getElem?_eq_some.mp hti
    have hg : tasks.get ⟨i, hk⟩ = t := by
      rw [List.get_eq_getElem]; exact hgeti
    rw [hg]
    exact ⟨hid, hmax, hatt⟩
  · rw [List.get_set_ne hik]
    exact ⟨rfl, rfl, le_refl _⟩

theorem updateStatus_shape (tasks : List Subtask) (tid : String)
    (st : TaskStatus) (res : Option String) :
    ((updateStatus tasks tid st res).2 = tasks) ∨
    (∃ i t t', ∃ hi : i < tasks.length,
      (updateStatus tasks tid st res).2 = tasks.set i t' ∧
      tasks[i]? = some t ∧ tasks.get ⟨i, hi⟩ = t ∧ t'.id = t.id ∧
      t'.max_attempts = t.max_attempts ∧ t'.attempts = t.attempts) := by
  rcases hidx : tasks.findIdx? (fun u => u.id == tid) with _ | i
  · left; simp only [updateStatus, hidx]
  · rcases hti : tasks[i]? with _ | t
    · left; simp only [updateStatus, hidx, hti]
    · right
      obtain ⟨hlt, hgeti⟩ := List.getElem?_eq_some.mp hti
      have hshape : (updateStatus tasks tid st res).2 =
          tasks.set i
            { t with
              status := st,
              result := (match res with
                         | some r => some r
                         | none => t.result) } := by
        simp only [updateStatus, hidx, hti]
      exact ⟨i, t, _, hlt, hshape, hti,
        by rw [List.get_eq_getElem]; exact hgeti, rfl, rfl, rfl⟩

theorem getNextTask_shape (tasks : List Subtask) :
    (getNextTask tasks = (none, tasks)) ∨
    (∃ i t', ∃ hi : i < tasks.length,
      getNextTask tasks = (some t', tasks.set i t') ∧
      t'.id = (tasks.get ⟨i, hi⟩).id ∧
      t'.max_attempts = (tasks.get ⟨i, hi⟩).max_attempts ∧
      t'.attempts = (tasks.get ⟨i, hi⟩).attempts + 1 ∧
      (tasks.get ⟨i, hi⟩).attempts < (tasks.get ⟨i, hi⟩).max_attempts) := by
  rw [getNextTask]
  cases h₁ : firstMin (eligiblePending tasks) tasks with
  | some it =>
    obtain ⟨i, tsel⟩ := it
    obtain ⟨hi, hget, hp, -, -⟩ :=
      firstMin_sound (eligiblePending tasks) tasks i tsel h₁
    rw [eligiblePending, Bool.and_eq_true, Bool.and_eq_true] at hp
    right
    refine ⟨i, _, hi, rfl, ?_, ?_, ?_, ?_⟩
    · rw [hget]
    · rw [hget]
    · rw [hget]
    · exact hget ▸ of_decide_eq_true hp.2
  | none =>
    cases h₂ : firstMin (eligibleRetry tasks) tasks with
    | some it =>
      obtain ⟨i, tsel⟩ := it
      obtain ⟨hi, hget, hp, -, -⟩ :=
        firstMin_sound (eligibleRetry tasks) tasks i tsel h₂
      rw [eligibleRetry, Bool.and_eq_true, Bool.and_eq_true] at hp
      right
      refine ⟨i, _, hi, rfl, ?_, ?_, ?_, ?_⟩
      · rw [hget]
      · rw [hget]
      · rw [hget]
      · exact hget ▸ of_decide_eq_true hp.1.2
    | none => left; rfl

theorem stepOp_facts (tasks : List Subtask) (op : PlannerOp) :
    ((stepOp tasks op).1).length = tasks.length ∧
    (∀ k (hk : k < tasks.length) (hk2 : k < ((stepOp tasks op).1).length),
      (((stepOp tasks op).1).get ⟨k, hk2⟩).id = (tasks.get ⟨k, hk⟩).id ∧
      (((stepOp tasks op).1).get ⟨k, hk2⟩).max_attempts =
        (tasks.get ⟨k, hk⟩).max_attempts ∧
      (tasks.get ⟨k, hk⟩).attempts ≤
        (((stepOp tasks op).1).get ⟨k, hk2⟩).attempts) ∧
    (∀ r, (stepOp tasks op).2 = some r →
      ∃ i, ∃ hi : i < tasks.length, r.id = (tasks.get ⟨i, hi⟩).id ∧
        (tasks.get ⟨i, hi⟩).attempts < (tasks.get ⟨i, hi⟩).max_attempts) := by
  cases op with
  | update tid st res =>
    have h1 : (stepOp tasks (.update tid st res)).1 =
        (updateStatus tasks tid st res).2 := rfl
    have h2 : (stepOp tasks (.update tid st res)).2 = none := rfl
    rcases updateStatus_shape tasks tid st res with hsh | ⟨i, t, t', hi, hsh,
        hti, hgeti, hid, hmax, hatt⟩
    · rw [h1, hsh]
      refine ⟨rfl, fun k hk hk2 => ⟨rfl, rfl, le_refl _⟩, fun r hr => ?_⟩
      rw [h2] at hr
      exact absurd hr (by simp)
    · rw [h1, hsh]
      refine ⟨List.length_set tasks i t', ?_, fun r hr => ?_⟩
      · exact set_preserves tasks i t t' hti hid hmax (le_of_eq hatt.symm)
      · rw [h2] at hr
        exact absurd hr (by simp)
  | next =>
    have h1 : (stepOp tasks .next).1 = (getNextTask tasks).2 := rfl
    have h2 : (stepOp tasks .next).2 = (getNextTask tasks).1 := rfl
    rcases getNextTask_shape tasks with hsh | ⟨i, t', hi, hsh, hid, hmax,
        hatt, hlt⟩
    · rw [h1, h2, hsh]
      exact ⟨rfl, fun k hk hk2 => ⟨rfl, rfl, le_refl _⟩,
        fun r hr => absurd hr (by simp)⟩
    · rw [h1, h2, hsh]
      refine ⟨List.length_set tasks i t', ?_, fun r hr => ?_⟩
      · refine set_preserves tasks i (tasks.get ⟨i, hi⟩) t' ?_ hid hmax ?_
        · rw [List.get_eq_getElem]
          exact List.getElem?_eq_getElem hi
        · rw [hatt]
          exact Nat.le_succ _
      · have hr' : t' = r := by injection hr
        refine ⟨i, hi, ?_, hlt⟩
        rw [← hr', hid]

theorem runOps_no_exhausted (ops : List PlannerOp) :
    ∀ (tasks : List Subtask) (k : Nat) (hk : k < tasks.length),
      (tasks.get ⟨k, hk⟩).max_attempts ≤ (tasks.get ⟨k, hk⟩).attempts →
      (∀ j (hj : j < tasks.length), j ≠ k →
        (tasks.get ⟨j, hj⟩).id ≠ (tasks.get ⟨k, hk⟩).id) →
      ∀ r ∈ (runOps ops tasks).2, r.id ≠ (tasks.get ⟨k, hk⟩).id := by
  induction ops with
  | nil =>
    intro tasks k hk _ _ r hr
    rw [runOps] at hr
    exact absurd hr (by simp)
  | cons op ops ih =>
    intro tasks k hk hexh huniq r hr
    rw [runOps] at hr
    obtain ⟨hlen, hpres, hret⟩ := stepOp_facts tasks op
    rcases List.mem_append.mp hr with hr | hr
    · have hsome : (stepOp tasks op).2 = some r := by
        cases hso : (stepOp tasks op).2 with
        | none => rw [hso] at hr; exact absurd hr (by simp)
        | some r' =>
          rw [hso] at hr
          simp only [Option.toList_some, List.mem_singleton] at hr
          rw [hr]
      obtain ⟨i, hi, hrid, hlt⟩ := hret r hsome
      by_cases hik : i = k
      · subst hik
        exact absurd hexh (not_le.mpr hlt)
      · rw [hrid]
        exact huniq i hi hik
    · have hk2 : k < ((stepOp tasks op).1).length := by rw [hlen]; exact hk
      obtain ⟨hidk, hmaxk, hattk⟩ := hpres k hk hk2
      have hres := ih ((stepOp tasks op).1) k hk2 ?_ ?_ r hr
      · rw [hidk] at hres
        exact hres
      · rw [hmaxk]
        exact le_trans hexh hattk
      · intro j hj hjk
        have hj' : j < tasks.length := by rw [← hlen]; exact hj
        obtain ⟨hidj, -, -⟩ := hpres j hj' hj
        rw [hidj, hidk]
        exact huniq j hj' hjk

/-- C5: once a task's attempts have reached its `max_attempts = 3` and it
sits in status `failed`, no sequence of further scheduler operations —
however often the task is re-marked `failed` — ever makes
`get_next_task()` hand that task out again (task ids assumed unique). -/
theorem claim5_retry_budget (ops : List PlannerOp) (tasks : List Subtask)
    (k : Nat) (hk : k < tasks.length)
    (hmax3 : (tasks.get ⟨k, hk⟩).max_attempts = 3)
    (hatt : (tasks.get ⟨k, hk⟩).attempts = 3)
    (_hfail : (tasks.get ⟨k, hk⟩).status = .failed)
    (huniq : ∀ j (hj : j < tasks.length), j ≠ k →
      (tasks.get ⟨j, hj⟩).id ≠ (tasks.get ⟨k, hk⟩).id) :
    ∀ r ∈ (runOps ops tasks).2, r.id ≠ (tasks.get ⟨k, hk⟩).id :=
  runOps_no_exhausted ops tasks k hk (by rw [hmax3, hatt]) huniq

/-- C5 witness: in the exhausted-plus-healthy two-task plan, the task the
trace's first `next` hands out is the healthy one, not the exhausted
`"X"`. -/
theorem claim5_witness :
    ({ demoTaskA with status := .in_progress, attempts := 1 } :
      Subtask).id ≠ "X" := by
  have h := claim5_retry_budget demoOps5 demoTasks5 0 (by decide) rfl rfl rfl
    (by decide)
  exact h _ (by decide)

end ResearchCore
